import Mathlib

/-!
Verification of the resumable batch-processing engine of the sharktrack
repository: a shallow embedding of `utils/resumable_processor.py` (task
ledger) and `utils/dynamic_load_balancer.py` (concurrency controller),
with theorems settling the specification claims about them.

Modelling conventions:
* Python `float` percentages and derived ratios are modelled as `Rat`; no
  claim depends on floating-point rounding at a decision boundary.
  Wall-clock instants (`time.time()` values) are opaque: nothing in the
  verified claims depends on their arithmetic beyond subtraction and
  comparison, so they are modelled as `Int` seconds; durations derived from
  them by true division (ETA, throughput) are `Rat`.
* Python `int` is modelled as `Int`.
* A Python `dict` (insertion ordered) is modelled as an association list
  `List (String × α)` whose insertion operation overwrites in place.
* The filesystem is passed in explicitly: discovery receives a snapshot of
  the input tree, output verification receives a size oracle, and the two
  persisted JSON files are a `Disk` record.  JSON (de)serialisation of the
  flat dataclasses is the identity on well-formed records, so the disk
  stores the records themselves; a corrupt file is `FileContent.corrupt`.
* `md5` digests are not computed; the batch-id digest is an explicit
  function parameter and file checksums are part of the tree snapshot.
-/

namespace SharkTrack

/-- Python `s.replace(old, new)` restricted to single-character `old`/`new`
(the only form the source uses): a character-wise map. -/
def replaceChar (s : String) (old new : Char) : String :=
  String.mk (s.toList.map (fun c => if c = old then new else c))

/-- Python `s.endswith(suffix)` / the suffix match performed by
`rglob(f'*{ext}')` on a file name, at character level. -/
def endsWithStr (s suffixStr : String) : Bool :=
  suffixStr.toList.isSuffixOf s.toList

/-- Last path component of a POSIX relative path (`video_file.name`). -/
def fileName (s : String) : String :=
  String.mk ((s.toList.reverse.takeWhile (fun c => c ≠ '/')).reverse)

/-- Source `discover_tasks` line: task_id built from the path relative to
the input root, `str(rel_path).replace(os.sep, '_').replace('.', '_')`
(with `os.sep = '/'`). -/
def task_id_of (rel_path : String) : String :=
  replaceChar (replaceChar rel_path '/' '_') '.' '_'

/-- Dataclass `TaskStatus` of `utils/resumable_processor.py`. -/
structure TaskStatus where
  task_id : String
  input_path : String
  output_path : String
  status : String
  start_time : Option Int := none
  end_time : Option Int := none
  error_message : Option String := none
  retry_count : Int := 0
  worker_id : Option String := none
  file_size : Option Int := none
  checksum : Option String := none
deriving DecidableEq

/-- Dataclass `BatchProgress` of `utils/resumable_processor.py`. -/
structure BatchProgress where
  batch_id : String
  input_directory : String
  output_directory : String
  total_tasks : Int
  completed_tasks : Int
  failed_tasks : Int
  skipped_tasks : Int
  start_time : Int
  last_update_time : Int
  estimated_completion_time : Option Rat := none
  current_workers : Int := 8
  delete_policy : String := "ask-each"
deriving DecidableEq

/-- Content of one persisted JSON file: present files either deserialize to
their record or raise inside `json.load` / the dataclass constructor. -/
inductive FileContent (α : Type) where
  | corrupt : FileContent α
  | valid (data : α) : FileContent α
deriving DecidableEq

/-- The two ledger files (`{batch_id}_progress.json`, `{batch_id}_tasks.json`).
`none` means the file does not exist. -/
structure Disk where
  progressFile : Option (FileContent BatchProgress) := none
  tasksFile : Option (FileContent (List (String × TaskStatus))) := none
deriving DecidableEq

/-- In-memory state of a `ResumableProcessor` object (its pure fields;
`Path` handles are their strings). -/
structure ResumableProcessor where
  batch_name : String
  input_dir : String
  output_dir : String
  progress_dir : String
  auto_save_interval : Int
  batch_id : String
  tasks : List (String × TaskStatus)
  batch_progress : Option BatchProgress
  last_save_time : Int
deriving DecidableEq

/-- Source `_generate_batch_id`: digest of
`f"{batch_name}_{input_dir}_{output_dir}_{date}"`; the md5-hex-prefix digest
itself is the parameter `digest`. -/
def generate_batch_id (digest : String → String)
    (batch_name input_dir output_dir date : String) : String :=
  digest (batch_name ++ "_" ++ input_dir ++ "_" ++ output_dir ++ "_" ++ date)

/-- Source `ResumableProcessor.__init__` (the directory `mkdir` side effect
is not part of the pure state). -/
def mkResumableProcessor (digest : String → String)
    (batch_name input_dir output_dir progress_dir : String)
    (auto_save_interval : Int) (date : String) (now : Int) :
    ResumableProcessor :=
  { batch_name := batch_name
    input_dir := input_dir
    output_dir := output_dir
    progress_dir := progress_dir
    auto_save_interval := auto_save_interval
    batch_id := generate_batch_id digest batch_name input_dir output_dir date
    tasks := []
    batch_progress := none
    last_save_time := now }

/-- One file of the input-tree snapshot seen by discovery: its path relative
to the input root, its `stat().st_size`, and the md5 of its content. -/
structure FileEntry where
  rel_path : String
  size : Int
  checksum : String
deriving DecidableEq

/-- Default `video_extensions` of `discover_tasks`. -/
def default_video_extensions : List String :=
  [".MP4", ".mp4", ".MOV", ".mov", ".AVI", ".avi"]

/-- Source `ResumableProcessor.discover_tasks`: for each extension, every
file of the tree matching `*{ext}`, as a pending `TaskStatus` whose id comes
from the relative path and whose output path is
`output_dir / "converted" / file name`. -/
def discover_tasks (input_dir output_dir : String) (tree : List FileEntry)
    (video_extensions : List String) : List TaskStatus :=
  (video_extensions.map (fun ext =>
    (tree.filter (fun f => endsWithStr f.rel_path ext)).map (fun f =>
      { task_id := task_id_of f.rel_path
        input_path := input_dir ++ "/" ++ f.rel_path
        output_path := output_dir ++ "/converted/" ++ fileName f.rel_path
        status := "pending"
        file_size := some f.size
        checksum := some f.checksum }))).flatten

/-- Python dict insertion: overwrite in place if the key is present,
append otherwise. -/
def dictInsert (m : List (String × TaskStatus)) (k : String) (v : TaskStatus) :
    List (String × TaskStatus) :=
  if (m.lookup k).isSome then
    m.map (fun q => if q.1 = k then (k, v) else q)
  else m ++ [(k, v)]

/-- The dict comprehension `{task.task_id: task for task in tasks}`. -/
def buildTaskDict (ts : List TaskStatus) : List (String × TaskStatus) :=
  ts.foldl (fun m t => dictInsert m t.task_id t) []

/-- Source `get_pending_tasks`. -/
def get_pending_tasks (p : ResumableProcessor) : List TaskStatus :=
  (p.tasks.map Prod.snd).filter (fun t => t.status == "pending")

/-- Source `get_failed_tasks`. -/
def get_failed_tasks (p : ResumableProcessor) : List TaskStatus :=
  (p.tasks.map Prod.snd).filter (fun t => t.status == "failed")

/-- Source `get_remaining_task_count`. -/
def get_remaining_task_count (p : ResumableProcessor) : Int :=
  ((p.tasks.map Prod.snd).filter
    (fun t => t.status == "pending" || t.status == "failed")).length

/-- Source `load_existing_progress`.  Returns the bool result and the
(possibly partially mutated) object.  Both deserialisation failures are
swallowed by the `except` clause and turn into a `False` return; when the
progress file parses but the tasks file does not, `self.batch_progress` has
already been assigned before the exception. -/
def load_existing_progress (p : ResumableProcessor) (d : Disk) :
    Bool × ResumableProcessor :=
  match d.progressFile, d.tasksFile with
  | none, _ => (false, p)
  | some _, none => (false, p)
  | some pf, some tf =>
    match pf with
    | .corrupt => (false, p)
    | .valid bp =>
      match tf with
      | .corrupt => (false, { p with batch_progress := some bp })
      | .valid ts => (true, { p with batch_progress := some bp, tasks := ts })

/-- Source `save_progress` at wall-clock time `now`.  With no batch progress
the first attribute access raises and the method's own `try/except` swallows
it, leaving state and disk unchanged; otherwise the timestamp and ETA fields
are refreshed and both files are (over)written with the current records. -/
def save_progress (p : ResumableProcessor) (d : Disk) (now : Int) :
    ResumableProcessor × Disk :=
  match p.batch_progress with
  | none => (p, d)
  | some bp =>
    let bp1 := { bp with last_update_time := now }
    let bp2 :=
      if bp1.completed_tasks > 0 then
        let elapsed := now - bp1.start_time
        let avg_time_per_task := (elapsed : Rat) / (bp1.completed_tasks : Rat)
        let remaining := get_remaining_task_count p
        let estimated_remaining := (remaining : Rat) * avg_time_per_task
        { bp1 with estimated_completion_time := some ((now : Rat) + estimated_remaining) }
      else bp1
    ({ p with batch_progress := some bp2 },
     { progressFile := some (.valid bp2), tasksFile := some (.valid p.tasks) })

/-- Source `_auto_save`: persist only if more than `auto_save_interval`
seconds have elapsed since the last persist. -/
def auto_save (p : ResumableProcessor) (d : Disk) (now : Int) :
    ResumableProcessor × Disk :=
  if now - p.last_save_time > p.auto_save_interval then
    let pd := save_progress p d now
    ({ pd.1 with last_save_time := now }, pd.2)
  else (p, d)

/-- Source `initialize_new_batch`: discover (with the default extension
list), build the task dict, create the aggregate, persist, and return the
discovered list. -/
def init_new_batch (p : ResumableProcessor) (d : Disk)
    (tree : List FileEntry) (now : Int) (delete_policy : String) :
    ResumableProcessor × Disk × List TaskStatus :=
  let ts := discover_tasks p.input_dir p.output_dir tree
      default_video_extensions
  let p1 := { p with
    tasks := buildTaskDict ts
    batch_progress := some {
      batch_id := p.batch_id
      input_directory := p.input_dir
      output_directory := p.output_dir
      total_tasks := ts.length
      completed_tasks := 0
      failed_tasks := 0
      skipped_tasks := 0
      start_time := now
      last_update_time := now
      delete_policy := delete_policy } }
  let pd := save_progress p1 d now
  (pd.1, pd.2, ts)

/-- In-place mutation of the dict entry with key `tid` (all entries with
that key are the same first-occurrence object in Python; `lookup` reads the
first). -/
def dictModify (m : List (String × TaskStatus)) (tid : String)
    (f : TaskStatus → TaskStatus) : List (String × TaskStatus) :=
  m.map (fun q => if q.1 = tid then (q.1, f q.2) else q)

/-- The per-task field update of `mark_task_started`. -/
def started_update (worker_id : Option String) (now : Int) :
    TaskStatus → TaskStatus := fun t =>
  { t with status := "processing", start_time := some now,
           worker_id := worker_id }

/-- The per-task field update of `mark_task_completed` (the
`if output_path:` truthiness test is false for `None` and for `""`). -/
def completed_update (output_path : Option String) (now : Int) :
    TaskStatus → TaskStatus := fun t =>
  let t1 := { t with status := "completed", end_time := some now }
  match output_path with
  | some s => if s = "" then t1 else { t1 with output_path := s }
  | none => t1

/-- The per-task field update of `mark_task_failed`. -/
def failed_update (error_message : Option String) (now : Int) :
    TaskStatus → TaskStatus := fun t =>
  { t with status := "failed", end_time := some now,
           error_message := error_message,
           retry_count := t.retry_count + 1 }

/-- The per-task field update of `mark_task_skipped`. -/
def skipped_update (reason : Option String) (now : Int) :
    TaskStatus → TaskStatus := fun t =>
  { t with status := "skipped", end_time := some now,
           error_message := reason }

/-- Source `mark_task_started`: no counter update and no auto-save. -/
def mark_task_started (p : ResumableProcessor) (d : Disk) (tid : String)
    (worker_id : Option String) (now : Int) : ResumableProcessor × Disk :=
  if (p.tasks.lookup tid).isSome then
    ({ p with tasks :=
        dictModify p.tasks tid (started_update worker_id now) }, d)
  else (p, d)

/-- Source `mark_task_completed`.  The `if output_path:` truthiness test is
false for `None` and for the empty string.  Incrementing
`batch_progress.completed_tasks` is modelled on the initialised batch (with
`batch_progress = None` the Python attribute access would raise; every
theorem below stays in the initialised domain). -/
def mark_task_completed (p : ResumableProcessor) (d : Disk) (tid : String)
    (output_path : Option String) (now : Int) : ResumableProcessor × Disk :=
  if (p.tasks.lookup tid).isSome then
    let p1 := { p with
      tasks := dictModify p.tasks tid (completed_update output_path now)
      batch_progress := p.batch_progress.map (fun bp =>
        { bp with completed_tasks := bp.completed_tasks + 1 }) }
    auto_save p1 d now
  else (p, d)

/-- Source `mark_task_failed`: records the error, bumps `retry_count`, bumps
the batch `failed_tasks` counter, and auto-saves. -/
def mark_task_failed (p : ResumableProcessor) (d : Disk) (tid : String)
    (error_message : Option String) (now : Int) : ResumableProcessor × Disk :=
  if (p.tasks.lookup tid).isSome then
    let p1 := { p with
      tasks := dictModify p.tasks tid (failed_update error_message now)
      batch_progress := p.batch_progress.map (fun bp =>
        { bp with failed_tasks := bp.failed_tasks + 1 }) }
    auto_save p1 d now
  else (p, d)

/-- Source `mark_task_skipped`: the reason is stored in `error_message`. -/
def mark_task_skipped (p : ResumableProcessor) (d : Disk) (tid : String)
    (reason : Option String) (now : Int) : ResumableProcessor × Disk :=
  if (p.tasks.lookup tid).isSome then
    let p1 := { p with
      tasks := dictModify p.tasks tid (skipped_update reason now)
      batch_progress := p.batch_progress.map (fun bp =>
        { bp with skipped_tasks := bp.skipped_tasks + 1 }) }
    auto_save p1 d now
  else (p, d)

/-- One call of the four ledger transitions, as data. -/
inductive LedgerOp where
  | started (tid : String) (worker_id : Option String) (now : Int)
  | completed (tid : String) (output_path : Option String) (now : Int)
  | failed (tid : String) (error_message : Option String) (now : Int)
  | skipped (tid : String) (reason : Option String) (now : Int)
deriving DecidableEq

/-- Apply one transition call to processor-plus-disk. -/
def apply_op (pd : ResumableProcessor × Disk) (op : LedgerOp) :
    ResumableProcessor × Disk :=
  match op with
  | .started tid w now => mark_task_started pd.1 pd.2 tid w now
  | .completed tid o now => mark_task_completed pd.1 pd.2 tid o now
  | .failed tid e now => mark_task_failed pd.1 pd.2 tid e now
  | .skipped tid r now => mark_task_skipped pd.1 pd.2 tid r now

/-- Size oracle for output files: `none` means the file does not exist,
`some sz` is `stat().st_size`. -/
def SizeOracle : Type := String → Option Int

/-- The body of the `verify_completed_tasks` loop, by structural recursion
over the task dict: each completed entry whose output is missing or smaller
than 1024 bytes is reset to pending; the returned triple is the rewritten
dict, the collected invalid ids (in dict order) and the number of resets
(the net decrement applied to `completed_tasks`). -/
def verify_scan (sizes : SizeOracle) :
    List (String × TaskStatus) → List (String × TaskStatus) × List String × Int
  | [] => ([], [], 0)
  | q :: rest =>
    let r := verify_scan sizes rest
    if q.2.status = "completed" then
      match sizes q.2.output_path with
      | none =>
        ((q.1, { q.2 with status := "pending" }) :: r.1, q.1 :: r.2.1, r.2.2 + 1)
      | some sz =>
        if sz < 1024 then
          ((q.1, { q.2 with status := "pending" }) :: r.1, q.1 :: r.2.1, r.2.2 + 1)
        else (q :: r.1, r.2.1, r.2.2)
    else (q :: r.1, r.2.1, r.2.2)

/-- Source `verify_completed_tasks`: scan, decrement the batch counter once
per reset (again on the initialised batch), and persist if anything was
invalid.  Returns the new state, the disk, and the invalid id list. -/
def verify_completed_tasks (p : ResumableProcessor) (d : Disk)
    (sizes : SizeOracle) (now : Int) :
    ResumableProcessor × Disk × List String :=
  let r := verify_scan sizes p.tasks
  let p1 := { p with
    tasks := r.1
    batch_progress := p.batch_progress.map (fun bp =>
      { bp with completed_tasks := bp.completed_tasks - r.2.2 }) }
  if r.2.1 = [] then (p1, d, r.2.1)
  else
    let pd := save_progress p1 d now
    (pd.1, pd.2, r.2.1)

/-- The dictionary returned by `get_progress_summary`; the ETA entry is kept
as the positive remaining-seconds value (`none` renders as `"Unknown"`; the
source formats the positive case as a 1-decimal hour string). -/
structure ProgressSummary where
  batch_id : String
  total_tasks : Int
  completed : Int
  failed : Int
  skipped : Int
  remaining : Int
  completion_percentage : Rat
  elapsed_time_hours : Rat
  estimated_time_remaining : Option Rat
  throughput_per_hour : Rat
  current_workers : Int
deriving DecidableEq

/-- Source `get_progress_summary`: `{}` (here `Except.ok none`) when no
batch is initialised; otherwise the completion percentage divides by
`total_tasks`, which in Python raises `ZeroDivisionError` when the batch is
empty — modelled as `Except.error`. -/
def get_progress_summary (p : ResumableProcessor) (now : Int) :
    Except String (Option ProgressSummary) :=
  match p.batch_progress with
  | none => .ok none
  | some bp =>
    let remaining := get_remaining_task_count p
    let elapsed_time : Int := now - bp.start_time
    if bp.total_tasks = 0 then .error "ZeroDivisionError"
    else
      let completion_pct := ((bp.completed_tasks : Rat) / (bp.total_tasks : Rat)) * 100
      let eta :=
        match bp.estimated_completion_time with
        | some e =>
          if e ≠ 0 then
            (if e - (now : Rat) > 0 then some (e - (now : Rat)) else none)
          else none
        | none => none
      let throughput :=
        if elapsed_time > 0 then (bp.completed_tasks : Rat) / (elapsed_time : Rat) else 0
      .ok (some {
        batch_id := bp.batch_id
        total_tasks := bp.total_tasks
        completed := bp.completed_tasks
        failed := bp.failed_tasks
        skipped := bp.skipped_tasks
        remaining := remaining
        completion_percentage := completion_pct
        elapsed_time_hours := (elapsed_time : Rat) / 3600
        estimated_time_remaining := eta
        throughput_per_hour := throughput * 3600
        current_workers := bp.current_workers })

/-! ## Dynamic load balancer (`utils/dynamic_load_balancer.py`) -/

/-- Dataclass `SystemMetrics`. -/
structure SystemMetrics where
  cpu_usage_per_core : List Rat
  cpu_usage_avg : Rat
  memory_usage : Rat
  disk_io_read : Rat
  disk_io_write : Rat
  gpu_usage : Option Rat := none
  active_workers : Int := 0
  queued_tasks : Int := 0
deriving DecidableEq

/-- One entry of `adjustment_history` (the source stores the triggering CPU
reading formatted into a reason string; the reading itself is kept). -/
structure AdjustmentRecord where
  timestamp : Int
  old_workers : Int
  new_workers : Int
  trigger_cpu : Option Rat
deriving DecidableEq

/-- Pure state of a `DynamicLoadBalancer` object (queues, executor handles
and thread flags are runtime plumbing with no bearing on the claims). -/
structure DynamicLoadBalancer where
  initial_workers : Int
  min_workers : Int
  max_workers : Int
  target_cpu_usage : Rat
  adjustment_interval : Rat
  active_workers : Int
  metrics_history : List SystemMetrics
  adjustment_history : List AdjustmentRecord
  tasks_completed : Int
  total_processing_time : Rat
  last_adjustment_time : Int
deriving DecidableEq

/-- Source `DynamicLoadBalancer.__init__`: stores every argument verbatim —
there is no validation of the worker bounds anywhere in the constructor. -/
def DynamicLoadBalancer.init (initial_workers min_workers max_workers : Int)
    (target_cpu_usage adjustment_interval : Rat) (now : Int) :
    DynamicLoadBalancer :=
  { initial_workers := initial_workers
    min_workers := min_workers
    max_workers := max_workers
    target_cpu_usage := target_cpu_usage
    adjustment_interval := adjustment_interval
    active_workers := initial_workers
    metrics_history := []
    adjustment_history := []
    tasks_completed := 0
    total_processing_time := 0
    last_adjustment_time := now }

/-- Python `int(q)` for a float/ratio: truncation toward zero. -/
def truncRat (q : Rat) : Int := q.num.tdiv (q.den : Int)

/-- Python `l[-n:]`. -/
def lastN {α : Type} (n : Nat) (l : List α) : List α :=
  l.drop (l.length - n)

/-- Source `_detect_io_bottleneck`: with fewer than three history samples
return `False`; otherwise the mean CPU of the last three samples is below
50 while the queue is non-empty. -/
def detect_io_bottleneck (lb : DynamicLoadBalancer) (metrics : SystemMetrics) :
    Bool :=
  if lb.metrics_history.length < 3 then false
  else
    let recent := lastN 3 lb.metrics_history
    let avg_cpu := (recent.map (fun m => m.cpu_usage_avg)).sum / (recent.length : Rat)
    avg_cpu < 50 && metrics.queued_tasks > 0

/-- Source `calculate_optimal_workers`: the CPU hysteresis step, the memory
ceiling `int((100 - mem) / 8)`, the I/O-bottleneck decrement, the queue
backlog/idle correction, and the final clamp into the worker bounds. -/
def calculate_optimal_workers (lb : DynamicLoadBalancer)
    (metrics : SystemMetrics) : Int :=
  let suggested1 : Int :=
    if metrics.cpu_usage_avg < lb.target_cpu_usage * (7 / 10) then
      min (lb.active_workers + 1) lb.max_workers
    else if metrics.cpu_usage_avg > lb.target_cpu_usage * (11 / 10) then
      max (lb.active_workers - 1) lb.min_workers
    else lb.active_workers
  let memory_workers := truncRat ((100 - metrics.memory_usage) / 8)
  let suggested2 := min suggested1 memory_workers
  let suggested3 :=
    if detect_io_bottleneck lb metrics then max (suggested2 - 1) lb.min_workers
    else suggested2
  let suggested4 :=
    if metrics.queued_tasks > suggested3 * 3 then
      min (suggested3 + 1) lb.max_workers
    else if metrics.queued_tasks < suggested3 ∧ metrics.cpu_usage_avg < 60 then
      max (suggested3 - 1) lb.min_workers
    else suggested3
  max lb.min_workers (min suggested4 lb.max_workers)

/-- Source `adjust_workers`: no-op when unchanged, otherwise swap in the new
count and append an adjustment record (executor restart is runtime-only).
The recorded reason is the CPU of the last history sample, if any. -/
def adjust_workers (lb : DynamicLoadBalancer) (new_worker_count : Int)
    (now : Int) : Bool × DynamicLoadBalancer :=
  if new_worker_count = lb.active_workers then (false, lb)
  else
    (true, { lb with
      active_workers := new_worker_count
      adjustment_history := lb.adjustment_history ++ [{
        timestamp := now
        old_workers := lb.active_workers
        new_workers := new_worker_count
        trigger_cpu := (lb.metrics_history.getLast?).map
          (fun m => m.cpu_usage_avg) }] })

/-- The history bookkeeping at the top of each `monitor_and_adjust`
iteration: append the fresh sample and trim to the last 120. -/
def push_metrics (lb : DynamicLoadBalancer) (m : SystemMetrics) :
    DynamicLoadBalancer :=
  let h := lb.metrics_history ++ [m]
  { lb with metrics_history := if h.length > 120 then lastN 120 h else h }

/-- One `monitor_and_adjust` iteration in which the adjustment interval has
elapsed (the due branch): push the sample, evaluate
`calculate_optimal_workers`, and apply `adjust_workers` when the result
differs, stamping `last_adjustment_time`. -/
def monitor_step (lb : DynamicLoadBalancer) (m : SystemMetrics) (now : Int) :
    DynamicLoadBalancer :=
  let lb1 := push_metrics lb m
  let optimal := calculate_optimal_workers lb1 m
  if optimal ≠ lb1.active_workers then
    { (adjust_workers lb1 optimal now).2 with last_adjustment_time := now }
  else lb1

/-- Repeated adjustment cycles over a synthetic metrics stream. -/
def run_stream (lb : DynamicLoadBalancer) (stream : List SystemMetrics)
    (now : Int) : DynamicLoadBalancer :=
  stream.foldl (fun l m => monitor_step l m now) lb

/-! ## Predicates and fixtures used by the claim statements -/

/-- Number of ledger entries currently in a given status (the quantity the
invariant claims sum over). -/
def count_status (p : ResumableProcessor) (s : String) : Int :=
  (p.tasks.countP (fun q => q.2.status == s) : Nat)

/-- The five statuses a ledger entry can carry. -/
def valid_status (s : String) : Prop :=
  s = "pending" ∨ s = "processing" ∨ s = "completed" ∨ s = "failed" ∨
    s = "skipped"

/-- Agreement of two batch records on everything except the two
timestamp/ETA fields `last_update_time` and `estimated_completion_time`. -/
def coreEq (a b : BatchProgress) : Prop :=
  a.batch_id = b.batch_id ∧ a.input_directory = b.input_directory ∧
  a.output_directory = b.output_directory ∧ a.total_tasks = b.total_tasks ∧
  a.completed_tasks = b.completed_tasks ∧ a.failed_tasks = b.failed_tasks ∧
  a.skipped_tasks = b.skipped_tasks ∧ a.start_time = b.start_time ∧
  a.current_workers = b.current_workers ∧ a.delete_policy = b.delete_policy

/-- The reset condition of `verify_completed_tasks` for one entry: a
completed task whose output is missing or smaller than 1024 bytes. -/
def output_invalid (sizes : SizeOracle) (t : TaskStatus) : Bool :=
  t.status == "completed" &&
    (match sizes t.output_path with
     | none => true
     | some sz => sz < 1024)

/-- Stream condition under which one adjustment cycle is guaranteed to grow
the pool: CPU has headroom (`< 0.7 × target`) but is not so low that the
I/O-bottleneck or idle-worker heuristics fire (`≥ 50`, and below the idle
threshold bound `60`), the memory ceiling admits `max_workers` workers, and
the queue keeps at least `max_workers` entries. -/
def SteadySample (target : Rat) (maxw : Int) (m : SystemMetrics) : Prop :=
  50 ≤ m.cpu_usage_avg ∧ m.cpu_usage_avg < target * (7 / 10) ∧
  m.cpu_usage_avg < 60 ∧ maxw ≤ truncRat ((100 - m.memory_usage) / 8) ∧
  maxw ≤ m.queued_tasks

/-- Fixture: an input tree with two distinct files whose relative paths
collide after the `'/'`/`'.'` to `'_'` substitutions. -/
def treeCollide : List FileEntry :=
  [⟨"a.b.mp4", 2048, "c1"⟩, ⟨"a_b.mp4", 2048, "c2"⟩]

/-- Fixture: an input tree with two files whose task ids are distinct. -/
def treeGood : List FileEntry :=
  [⟨"a.mp4", 2048, "c1"⟩, ⟨"deep/b.mov", 4096, "c2"⟩]

/-- Fixture: a processor built with an identity digest. -/
def procW : ResumableProcessor :=
  mkResumableProcessor (fun s => s) "batch" "in" "out" "progress" 30
    "2026-10-12" 0

/-- Fixture: a balancer in mid-range state (bounds 1..16, 2 active). -/
def lbWide : DynamicLoadBalancer := DynamicLoadBalancer.init 2 1 16 85 5 0

/-- Fixture: a balancer with bounds 1..2 and one active worker. -/
def lbSmall : DynamicLoadBalancer := DynamicLoadBalancer.init 1 1 2 85 5 0

/-- Fixture: a sample with low CPU (40%) and a short queue (depth 1). -/
def mIdle : SystemMetrics :=
  { cpu_usage_per_core := [], cpu_usage_avg := 40, memory_usage := 20
    disk_io_read := 0, disk_io_write := 0, queued_tasks := 1 }

/-- Fixture: a steady sample (55% CPU, 20% memory, queue depth 2). -/
def mSteady : SystemMetrics :=
  { cpu_usage_per_core := [], cpu_usage_avg := 55, memory_usage := 20
    disk_io_read := 0, disk_io_write := 0, queued_tasks := 2 }

/-- Fixture: fully degenerate metrics (0% CPU, 100% memory, empty queue). -/
def mZero : SystemMetrics :=
  { cpu_usage_per_core := [], cpu_usage_avg := 0, memory_usage := 100
    disk_io_read := 0, disk_io_write := 0, queued_tasks := 0 }

/-- Fixture: a disk whose two ledger files exist but are corrupt. -/
def diskCorrupt : Disk :=
  { progressFile := some FileContent.corrupt
    tasksFile := some FileContent.corrupt }

/-- Fixture: an initialised-but-empty batch record (total 0). -/
def bpZero : BatchProgress :=
  { batch_id := "batch0", input_directory := "in", output_directory := "out"
    total_tasks := 0, completed_tasks := 0, failed_tasks := 0
    skipped_tasks := 0, start_time := 0, last_update_time := 0 }

/-- Fixture: a one-task batch record. -/
def bpOne : BatchProgress :=
  { batch_id := "batch1", input_directory := "in", output_directory := "out"
    total_tasks := 1, completed_tasks := 0, failed_tasks := 0
    skipped_tasks := 0, start_time := 0, last_update_time := 0 }

/-- Fixture: a processor holding the empty batch. -/
def procZero : ResumableProcessor := { procW with batch_progress := some bpZero }

/-- Fixture: a processor holding the one-task batch, with one pending task. -/
def procOne : ResumableProcessor :=
  { procW with
    batch_progress := some bpOne
    tasks := [("a_mp4",
      { task_id := "a_mp4", input_path := "in/a.mp4"
        output_path := "out/converted/a.mp4", status := "pending" })] }

/-- Key list of the task dict. -/
def dictKeys (m : List (String × TaskStatus)) : List String :=
  m.map Prod.fst

/-- The ledger invariant carried through initialisation and transitions:
every entry is in one of the five statuses, and the batch aggregate exists
with `total_tasks` equal to the number of dict entries. -/
def LedgerInv (p : ResumableProcessor) : Prop :=
  (∀ q ∈ p.tasks, valid_status q.2.status) ∧
  ∃ bp, p.batch_progress = some bp ∧
    bp.total_tasks = (p.tasks.length : Int)

/-- Fixture: `treeGood` with different sizes and checksums (same paths). -/
def treeGood2 : List FileEntry :=
  [⟨"a.mp4", 9, "x1"⟩, ⟨"deep/b.mov", 9, "x2"⟩]

/-- Fixture: a transition sequence touching both tasks of `treeGood`. -/
def opsW : List LedgerOp :=
  [LedgerOp.started "a_mp4" (some "w1") 1,
   LedgerOp.failed "a_mp4" (some "boom") 2,
   LedgerOp.completed "deep_b_mov" none 100,
   LedgerOp.skipped "no_such_id" none 101]

/-! ## Helper lemmas -/

theorem coreEq_trans {a b c : BatchProgress} (h1 : coreEq a b)
    (h2 : coreEq b c) : coreEq a c := by
  unfold coreEq at h1 h2 ⊢
  obtain ⟨e1, e2, e3, e4, e5, e6, e7, e8, e9, e10⟩ := h1
  obtain ⟨f1, f2, f3, f4, f5, f6, f7, f8, f9, f10⟩ := h2
  exact ⟨e1.trans f1, e2.trans f2, e3.trans f3, e4.trans f4, e5.trans f5,
    e6.trans f6, e7.trans f7, e8.trans f8, e9.trans f9, e10.trans f10⟩

theorem load_valid (q : ResumableProcessor) (bp : BatchProgress)
    (ts : List (String × TaskStatus)) :
    load_existing_progress q
        { progressFile := some (.valid bp), tasksFile := some (.valid ts) } =
      (true, { q with batch_progress := some bp, tasks := ts }) := rfl

theorem lookup_dictModify (tid : String) (f : TaskStatus → TaskStatus)
    (m : List (String × TaskStatus)) :
    (dictModify m tid f).lookup tid = (m.lookup tid).map f := by
  induction m with
  | nil => rfl
  | cons q rest ih =>
    rcases q with ⟨k, v⟩
    simp only [dictModify, List.map_cons] at ih ⊢
    by_cases h : k = tid
    · subst h
      rw [if_pos rfl]
      simp only [List.lookup, beq_self_eq_true]
      rfl
    · rw [if_neg h]
      have hne : (tid == k) = false := by
        simp only [beq_eq_false_iff_ne, ne_eq]
        exact fun hc => h hc.symm
      simp only [List.lookup, hne]
      exact ih

theorem lookup_eq_some_mem {m : List (String × TaskStatus)} {k : String}
    {v : TaskStatus} (h : m.lookup k = some v) : (k, v) ∈ m := by
  induction m with
  | nil => simp [List.lookup] at h
  | cons q rest ih =>
    rcases q with ⟨k', v'⟩
    by_cases hk : k = k'
    · subst hk
      simp [List.lookup] at h
      simp [h]
    · have hne : (k == k') = false := by simp [beq_iff_eq, hk]
      simp [List.lookup, hne] at h
      exact List.mem_cons_of_mem _ (ih h)

theorem save_progress_fst_tasks (p : ResumableProcessor) (d : Disk)
    (now : Int) : (save_progress p d now).1.tasks = p.tasks := by
  unfold save_progress
  cases p.batch_progress <;> simp

theorem save_progress_fst_last_save (p : ResumableProcessor) (d : Disk)
    (now : Int) :
    (save_progress p d now).1.auto_save_interval = p.auto_save_interval := by
  unfold save_progress
  cases p.batch_progress <;> simp

theorem save_progress_batch (p : ResumableProcessor) (d : Disk) (now : Int)
    (bp : BatchProgress) (h : p.batch_progress = some bp) :
    ∃ bp', (save_progress p d now).1.batch_progress = some bp' ∧
      coreEq bp' bp ∧
      (save_progress p d now).2 =
        { progressFile := some (.valid bp'),
          tasksFile := some (.valid p.tasks) } := by
  unfold save_progress
  rw [h]
  by_cases hc : bp.completed_tasks > 0 <;>
    simp [hc, coreEq]

theorem auto_save_tasks (p : ResumableProcessor) (d : Disk) (now : Int) :
    (auto_save p d now).1.tasks = p.tasks := by
  unfold auto_save
  by_cases h : now - p.last_save_time > p.auto_save_interval <;>
    simp [h, save_progress_fst_tasks]

theorem auto_save_batch (p : ResumableProcessor) (d : Disk) (now : Int)
    (bp : BatchProgress) (h : p.batch_progress = some bp) :
    ∃ bp', (auto_save p d now).1.batch_progress = some bp' ∧ coreEq bp' bp := by
  unfold auto_save
  by_cases hc : now - p.last_save_time > p.auto_save_interval
  · obtain ⟨bp', h1, h2, _⟩ := save_progress_batch p d now bp h
    exact ⟨bp', by simp [hc, h1], h2⟩
  · refine ⟨bp, by simp [hc, h], ?_⟩
    simp [coreEq]

theorem mark_task_failed_tasks (p : ResumableProcessor) (d : Disk)
    (tid : String) (msg : Option String) (now : Int)
    (h : (p.tasks.lookup tid).isSome) :
    (mark_task_failed p d tid msg now).1.tasks =
      dictModify p.tasks tid (failed_update msg now) := by
  unfold mark_task_failed
  rw [if_pos h]
  exact auto_save_tasks _ _ _

theorem lookup_mem_failed (p : ResumableProcessor) {tid : String}
    {v : TaskStatus} (h : p.tasks.lookup tid = some v)
    (hs : v.status = "failed") : v ∈ get_failed_tasks p := by
  unfold get_failed_tasks
  refine List.mem_filter.mpr ⟨?_, by simp [hs]⟩
  exact List.mem_map_of_mem Prod.snd (lookup_eq_some_mem h)

/-! ## Claim theorems -/

/-- C1: round-trip persistence.  Saving a ledger state and reloading the
written files onto a fresh object with the same batch parameters
reconstructs the full task map exactly and the batch aggregate up to the
timestamp/ETA fields; saving twice with no intervening state change yields
the same task statuses and counters on reload. -/
theorem C1_save_load_roundtrip (p q : ResumableProcessor) (d : Disk)
    (bp : BatchProgress) (t1 t2 : Int) (h : p.batch_progress = some bp) :
    (load_existing_progress q (save_progress p d t1).2).1 = true ∧
    (load_existing_progress q (save_progress p d t1).2).2.tasks = p.tasks ∧
    (load_existing_progress q
        (save_progress (save_progress p d t1).1 (save_progress p d t1).2
          t2).2).1 = true ∧
    (load_existing_progress q
        (save_progress (save_progress p d t1).1 (save_progress p d t1).2
          t2).2).2.tasks = p.tasks ∧
    ∃ bp1 bp2,
      (load_existing_progress q
          (save_progress p d t1).2).2.batch_progress = some bp1 ∧
      (load_existing_progress q
          (save_progress (save_progress p d t1).1 (save_progress p d t1).2
            t2).2).2.batch_progress = some bp2 ∧
      coreEq bp1 bp ∧ coreEq bp2 bp := by
  obtain ⟨bp1, hb1, hc1, hd1⟩ := save_progress_batch p d t1 bp h
  have htasks1 : (save_progress p d t1).1.tasks = p.tasks :=
    save_progress_fst_tasks p d t1
  obtain ⟨bp2, hb2, hc2, hd2⟩ :=
    save_progress_batch (save_progress p d t1).1 (save_progress p d t1).2 t2
      bp1 hb1
  rw [htasks1] at hd2
  rw [hd2, hd1, load_valid, load_valid]
  exact ⟨rfl, rfl, rfl, rfl, bp1, bp2, rfl, rfl, hc1,
    coreEq_trans hc2 hc1⟩

/-- C1 witness: a concrete two-task ledger state saved and reloaded. -/
theorem C1_save_load_roundtrip_witness :
    procOne.batch_progress = some bpOne ∧
    (load_existing_progress procW
        (save_progress procOne { } 7).2).1 = true ∧
    (load_existing_progress procW
        (save_progress procOne { } 7).2).2.tasks = procOne.tasks := by
  have h := C1_save_load_roundtrip procOne procW { } bpOne 7 9 rfl
  exact ⟨rfl, h.1, h.2.1⟩

/-- C2: for every metrics input, with well-ordered worker bounds, the
result of the optimal-worker calculation is clamped into
`[min_workers, max_workers]`. -/
theorem C2_optimal_workers_bounded (lb : DynamicLoadBalancer)
    (m : SystemMetrics) (h : lb.min_workers ≤ lb.max_workers) :
    lb.min_workers ≤ calculate_optimal_workers lb m ∧
      calculate_optimal_workers lb m ≤ lb.max_workers :=
  ⟨le_max_left _ _, max_le h (min_le_right _ _)⟩

/-- C2 witness: degenerate metrics (0% CPU, 100% memory, empty queue) on a
1..16 balancer. -/
theorem C2_optimal_workers_bounded_witness :
    lbWide.min_workers ≤ lbWide.max_workers ∧
    (lbWide.min_workers ≤ calculate_optimal_workers lbWide mZero ∧
      calculate_optimal_workers lbWide mZero ≤ lbWide.max_workers) :=
  ⟨by decide, C2_optimal_workers_bounded lbWide mZero (by decide)⟩

/-- C5 counterexample: constructing the balancer with `min_workers = 5 >
2 = max_workers` succeeds and stores the invalid bounds verbatim — no
configuration error is possible anywhere in `__init__`. -/
theorem C5_invalid_bounds_accepted_counterexample :
    (DynamicLoadBalancer.init 4 5 2 85 5 0).min_workers = 5 ∧
    (DynamicLoadBalancer.init 4 5 2 85 5 0).max_workers = 2 ∧
    (DynamicLoadBalancer.init 4 5 2 85 5 0).active_workers = 4 ∧
    ¬ ((5:Int) ≤ 2) := by decide

/-- C5 amended: construction never fails; for every combination of bounds
(valid or not) the constructor returns a balancer storing the arguments
verbatim, with empty histories and `active_workers = initial_workers`. -/
theorem C5_no_bounds_validation_amended (initial mn mx : Int)
    (target interval : Rat) (now : Int) :
    (DynamicLoadBalancer.init initial mn mx target interval now).min_workers
        = mn ∧
    (DynamicLoadBalancer.init initial mn mx target interval now).max_workers
        = mx ∧
    (DynamicLoadBalancer.init initial mn mx target interval
        now).active_workers = initial ∧
    (DynamicLoadBalancer.init initial mn mx target interval
        now).metrics_history = [] :=
  ⟨rfl, rfl, rfl, rfl⟩

/-- C6 counterexample: with both ledger files present but corrupt,
`load_existing_progress` returns `False` and raises nothing (the claim says
it returns false exactly when no files exist and raises on corrupt
files). -/
theorem C6_corrupt_returns_false_counterexample :
    diskCorrupt.progressFile.isSome = true ∧
    diskCorrupt.tasksFile.isSome = true ∧
    (load_existing_progress procW diskCorrupt).1 = false := by decide

/-- C6 amended: `load_existing_progress` never raises; it returns `True`
exactly when both files are present and deserialisable, and `False` both
when a file is missing and when a present file is corrupt (the internal
exception is caught and swallowed). -/
theorem C6_load_result_amended (p : ResumableProcessor) (d : Disk) :
    (load_existing_progress p d).1 = true ↔
      (∃ bp, d.progressFile = some (FileContent.valid bp)) ∧
      (∃ ts, d.tasksFile = some (FileContent.valid ts)) := by
  rcases d with ⟨pf, tf⟩
  rcases pf with _ | pf
  · simp [load_existing_progress]
  · rcases tf with _ | tf
    · rcases pf with _ | bp <;> simp [load_existing_progress]
    · rcases pf with _ | bp <;> rcases tf with _ | ts <;>
        simp [load_existing_progress]

/-- C7: marking a present task failed sets its status to `failed`, records
the supplied error message, increments `retry_count` by exactly one, and
makes the task appear in `get_failed_tasks`; a second failure increments the
count again (a task failed twice from a fresh state has `retry_count`
two). -/
theorem C7_mark_failed_effect (p : ResumableProcessor) (d : Disk)
    (tid : String) (t : TaskStatus) (msg1 msg2 : String) (t1 t2 : Int)
    (h : p.tasks.lookup tid = some t) :
    ∃ t' t'',
      (mark_task_failed p d tid (some msg1) t1).1.tasks.lookup tid
          = some t' ∧
      t'.status = "failed" ∧ t'.error_message = some msg1 ∧
      t'.retry_count = t.retry_count + 1 ∧
      t' ∈ get_failed_tasks (mark_task_failed p d tid (some msg1) t1).1 ∧
      (mark_task_failed (mark_task_failed p d tid (some msg1) t1).1
          (mark_task_failed p d tid (some msg1) t1).2 tid (some msg2)
          t2).1.tasks.lookup tid = some t'' ∧
      t''.status = "failed" ∧ t''.error_message = some msg2 ∧
      t''.retry_count = t.retry_count + 2 ∧
      t'' ∈ get_failed_tasks
        (mark_task_failed (mark_task_failed p d tid (some msg1) t1).1
          (mark_task_failed p d tid (some msg1) t1).2 tid (some msg2) t2).1
    := by
  have h1t := mark_task_failed_tasks p d tid (some msg1) t1 (by rw [h]; rfl)
  have hl1 : (mark_task_failed p d tid (some msg1) t1).1.tasks.lookup tid =
      some { t with status := "failed", end_time := some t1,
                    error_message := some msg1,
                    retry_count := t.retry_count + 1 } := by
    rw [h1t, lookup_dictModify, h]
    rfl
  have h2t := mark_task_failed_tasks (mark_task_failed p d tid (some msg1)
      t1).1 (mark_task_failed p d tid (some msg1) t1).2 tid (some msg2) t2
    (by rw [hl1]; rfl)
  have hl2 : (mark_task_failed (mark_task_failed p d tid (some msg1) t1).1
      (mark_task_failed p d tid (some msg1) t1).2 tid (some msg2)
      t2).1.tasks.lookup tid =
      some { t with status := "failed", end_time := some t2,
                    error_message := some msg2,
                    retry_count := t.retry_count + 1 + 1 } := by
    rw [h2t, lookup_dictModify, hl1]
    rfl
  refine ⟨_, _, hl1, rfl, rfl, rfl, lookup_mem_failed _ hl1 rfl, hl2, rfl,
    rfl, ?_, lookup_mem_failed _ hl2 rfl⟩
  show t.retry_count + 1 + 1 = t.retry_count + 2
  omega

/-- C7 witness: the single pending task of `procOne` failed twice. -/
theorem C7_mark_failed_effect_witness :
    ∃ t' t'',
      (mark_task_failed procOne { } "a_mp4" (some "boom") 3).1.tasks.lookup
          "a_mp4" = some t' ∧
      t'.status = "failed" ∧ t'.error_message = some "boom" ∧
      t'.retry_count = (0:Int) + 1 ∧
      t' ∈ get_failed_tasks
        (mark_task_failed procOne { } "a_mp4" (some "boom") 3).1 ∧
      (mark_task_failed (mark_task_failed procOne { } "a_mp4" (some "boom")
          3).1 (mark_task_failed procOne { } "a_mp4" (some "boom") 3).2
          "a_mp4" (some "again") 4).1.tasks.lookup "a_mp4" = some t'' ∧
      t''.status = "failed" ∧ t''.error_message = some "again" ∧
      t''.retry_count = (0:Int) + 2 ∧
      t'' ∈ get_failed_tasks
        (mark_task_failed (mark_task_failed procOne { } "a_mp4"
          (some "boom") 3).1 (mark_task_failed procOne { } "a_mp4"
          (some "boom") 3).2 "a_mp4" (some "again") 4).1 :=
  C7_mark_failed_effect procOne { } "a_mp4"
    { task_id := "a_mp4", input_path := "in/a.mp4"
      output_path := "out/converted/a.mp4", status := "pending" }
    "boom" "again" 3 4 (by decide)

/-- C10: the progress summary returns the empty dictionary when no batch is
initialised, raises `ZeroDivisionError` for an initialised batch with zero
total tasks, and returns a populated summary whenever at least one task
exists. -/
theorem C10_progress_summary_division (p : ResumableProcessor) (now : Int) :
    (p.batch_progress = none → get_progress_summary p now = .ok none) ∧
    ∀ bp, p.batch_progress = some bp →
      (bp.total_tasks = 0 →
        get_progress_summary p now = .error "ZeroDivisionError") ∧
      (1 ≤ bp.total_tasks →
        ∃ s, get_progress_summary p now = .ok (some s)) := by
  constructor
  · intro h
    unfold get_progress_summary
    rw [h]
  · intro bp h
    constructor
    · intro hz
      unfold get_progress_summary
      rw [h]
      simp [hz]
    · intro h1
      have hnz : ¬ bp.total_tasks = 0 := by omega
      unfold get_progress_summary
      rw [h]
      simp only [hnz, if_false]
      exact ⟨_, rfl⟩

/-- C10 witness: the three cases at concrete states (no batch, empty batch,
one-task batch). -/
theorem C10_progress_summary_division_witness :
    get_progress_summary procW 5 = .ok none ∧
    get_progress_summary procZero 5 = .error "ZeroDivisionError" ∧
    ∃ s, get_progress_summary procOne 5 = .ok (some s) :=
  ⟨(C10_progress_summary_division procW 5).1 rfl,
   ((C10_progress_summary_division procZero 5).2 bpZero rfl).1 rfl,
   ((C10_progress_summary_division procOne 5).2 bpOne rfl).2 (by decide)⟩

theorem verify_scan_fst (sizes : SizeOracle)
    (m : List (String × TaskStatus)) :
    (verify_scan sizes m).1 = m.map (fun q =>
      if output_invalid sizes q.2 then (q.1, { q.2 with status := "pending" })
      else q) := by
  induction m with
  | nil => rfl
  | cons q rest ih =>
    by_cases hc : q.2.status = "completed"
    · cases hsz : sizes q.2.output_path with
      | none =>
        have hinv : output_invalid sizes q.2 = true := by
          simp [output_invalid, hc, hsz]
        simp [verify_scan, hc, hsz, hinv, ih]
      | some sz =>
        by_cases hlt : sz < 1024
        · have hinv : output_invalid sizes q.2 = true := by
            simp [output_invalid, hc, hsz, hlt]
          simp [verify_scan, hc, hsz, hlt, hinv, ih]
        · have hinv : output_invalid sizes q.2 = false := by
            simp [output_invalid, hc, hsz, hlt]
          simp [verify_scan, hc, hsz, hlt, hinv, ih]
    · have hinv : output_invalid sizes q.2 = false := by
        simp [output_invalid, hc]
      simp [verify_scan, hc, hinv, ih]

theorem verify_scan_ids (sizes : SizeOracle)
    (m : List (String × TaskStatus)) :
    (verify_scan sizes m).2.1 =
      (m.filter (fun q => output_invalid sizes q.2)).map Prod.fst := by
  induction m with
  | nil => rfl
  | cons q rest ih =>
    by_cases hc : q.2.status = "completed"
    · cases hsz : sizes q.2.output_path with
      | none =>
        have hinv : output_invalid sizes q.2 = true := by
          simp [output_invalid, hc, hsz]
        simp [verify_scan, hc, hsz, hinv, ih, List.filter_cons]
      | some sz =>
        by_cases hlt : sz < 1024
        · have hinv : output_invalid sizes q.2 = true := by
            simp [output_invalid, hc, hsz, hlt]
          simp [verify_scan, hc, hsz, hlt, hinv, ih, List.filter_cons]
        · have hinv : output_invalid sizes q.2 = false := by
            simp [output_invalid, hc, hsz, hlt]
          simp [verify_scan, hc, hsz, hlt, hinv, ih, List.filter_cons]
    · have hinv : output_invalid sizes q.2 = false := by
        simp [output_invalid, hc]
      simp [verify_scan, hc, hinv, ih, List.filter_cons]

theorem verify_scan_count (sizes : SizeOracle)
    (m : List (String × TaskStatus)) :
    (verify_scan sizes m).2.2 =
      (m.countP (fun q => output_invalid sizes q.2) : Nat) := by
  induction m with
  | nil => rfl
  | cons q rest ih =>
    by_cases hc : q.2.status = "completed"
    · cases hsz : sizes q.2.output_path with
      | none =>
        have hinv : output_invalid sizes q.2 = true := by
          simp [output_invalid, hc, hsz]
        simp [verify_scan, hc, hsz, hinv, ih, List.countP_cons]
      | some sz =>
        by_cases hlt : sz < 1024
        · have hinv : output_invalid sizes q.2 = true := by
            simp [output_invalid, hc, hsz, hlt]
          simp [verify_scan, hc, hsz, hlt, hinv, ih, List.countP_cons]
        · have hinv : output_invalid sizes q.2 = false := by
            simp [output_invalid, hc, hsz, hlt]
          simp [verify_scan, hc, hsz, hlt, hinv, ih, List.countP_cons]
    · have hinv : output_invalid sizes q.2 = false := by
        simp [output_invalid, hc]
      simp [verify_scan, hc, hinv, ih, List.countP_cons]

/-- C9: output verification examines exactly the completed tasks; each one
whose output is missing or under 1024 bytes is reset to pending and its id
returned, the batch completed counter drops by one per reset, and every
other entry is untouched (the other batch counters are also untouched). -/
theorem C9_verify_completed_effect (p : ResumableProcessor) (d : Disk)
    (sizes : SizeOracle) (now : Int) (bp : BatchProgress)
    (h : p.batch_progress = some bp) :
    (verify_completed_tasks p d sizes now).2.2 =
      (p.tasks.filter (fun q => output_invalid sizes q.2)).map Prod.fst ∧
    (verify_completed_tasks p d sizes now).1.tasks =
      p.tasks.map (fun q =>
        if output_invalid sizes q.2 then
          (q.1, { q.2 with status := "pending" })
        else q) ∧
    ∃ bp', (verify_completed_tasks p d sizes now).1.batch_progress
        = some bp' ∧
      bp'.completed_tasks = bp.completed_tasks -
        (p.tasks.countP (fun q => output_invalid sizes q.2) : Nat) ∧
      bp'.total_tasks = bp.total_tasks ∧
      bp'.failed_tasks = bp.failed_tasks ∧
      bp'.skipped_tasks = bp.skipped_tasks := by
  unfold verify_completed_tasks
  by_cases hemp : (verify_scan sizes p.tasks).2.1 = []
  · rw [if_pos hemp]
    refine ⟨?_, ?_, ?_⟩
    · show (verify_scan sizes p.tasks).2.1 = _
      rw [verify_scan_ids]
    · show (verify_scan sizes p.tasks).1 = _
      rw [verify_scan_fst]
    show ∃ bp', (p.batch_progress.map _) = some bp' ∧ _
    rw [h]
    refine ⟨_, rfl, ?_, rfl, rfl, rfl⟩
    show bp.completed_tasks - (verify_scan sizes p.tasks).2.2 = _
    rw [verify_scan_count]
  · rw [if_neg hemp]
    set p1 : ResumableProcessor := { p with
      tasks := (verify_scan sizes p.tasks).1
      batch_progress := p.batch_progress.map (fun b =>
        { b with completed_tasks :=
            b.completed_tasks - (verify_scan sizes p.tasks).2.2 }) } with hp1
    have hb1 : p1.batch_progress = some { bp with completed_tasks :=
        bp.completed_tasks - (verify_scan sizes p.tasks).2.2 } := by
      rw [hp1]
      show (p.batch_progress.map _) = _
      rw [h]
      rfl
    obtain ⟨bp', h1, h2, _⟩ := save_progress_batch p1 d now _ hb1
    refine ⟨?_, ?_, bp', h1, ?_, ?_, ?_, ?_⟩
    · show (verify_scan sizes p.tasks).2.1 = _
      rw [verify_scan_ids]
    · rw [save_progress_fst_tasks]
      show (verify_scan sizes p.tasks).1 = _
      rw [verify_scan_fst]
    · rw [h2.2.2.2.2.1]
      show bp.completed_tasks - (verify_scan sizes p.tasks).2.2 = _
      rw [verify_scan_count]
    · exact h2.2.2.2.1
    · exact h2.2.2.2.2.2.1
    · exact h2.2.2.2.2.2.2.1

/-- C9 witness: a completed task whose output shrank below 1KB is reset. -/
theorem C9_verify_completed_effect_witness :
    ∃ bp', (verify_completed_tasks
        { procOne with
          tasks := [("a_mp4",
            { task_id := "a_mp4", input_path := "in/a.mp4"
              output_path := "out/converted/a.mp4", status := "completed" })]
          batch_progress := some { bpOne with completed_tasks := 1 } }
        { } (fun _ => some 10) 9).1.batch_progress = some bp' ∧
      bp'.completed_tasks = (1:Int) - ((1:Nat) : Int) := by
  have h := C9_verify_completed_effect
    { procOne with
      tasks := [("a_mp4",
        { task_id := "a_mp4", input_path := "in/a.mp4"
          output_path := "out/converted/a.mp4", status := "completed" })]
      batch_progress := some { bpOne with completed_tasks := 1 } }
    { } (fun _ => some 10) 9 { bpOne with completed_tasks := 1 } rfl
  obtain ⟨_, _, bp', hb, hc, _⟩ := h
  exact ⟨bp', hb, by rw [hc]; decide⟩

theorem countP_five (m : List (String × TaskStatus)) :
    (∀ q ∈ m, valid_status q.2.status) →
    m.countP (fun q => q.2.status == "pending") +
    m.countP (fun q => q.2.status == "processing") +
    m.countP (fun q => q.2.status == "completed") +
    m.countP (fun q => q.2.status == "failed") +
    m.countP (fun q => q.2.status == "skipped") = m.length := by
  induction m with
  | nil => intro _; rfl
  | cons q rest ih =>
    intro h
    have hq := h q (List.mem_cons_self q rest)
    have ihr := ih (fun x hx => h x (List.mem_cons_of_mem _ hx))
    rcases hq with h1 | h1 | h1 | h1 | h1 <;>
      simp only [List.countP_cons, h1, List.length_cons] <;>
      simp <;> omega

theorem lookup_isSome_iff (k : String) (m : List (String × TaskStatus)) :
    (m.lookup k).isSome ↔ k ∈ dictKeys m := by
  induction m with
  | nil => simp [List.lookup, dictKeys]
  | cons q rest ih =>
    rcases q with ⟨k', v'⟩
    by_cases hk : k = k'
    · subst hk
      simp [List.lookup, dictKeys]
    · have hne : (k == k') = false := by simp [beq_iff_eq, hk]
      simp only [List.lookup, hne, dictKeys, List.map_cons,
        List.mem_cons, hk, false_or]
      exact ih

theorem dictInsert_not_mem (m : List (String × TaskStatus)) (k : String)
    (v : TaskStatus) (h : k ∉ dictKeys m) :
    dictInsert m k v = m ++ [(k, v)] := by
  unfold dictInsert
  rw [if_neg]
  intro hc
  exact h ((lookup_isSome_iff k m).mp hc)

theorem foldl_dictInsert_pred (P : TaskStatus → Prop) :
    ∀ (ts : List TaskStatus) (m : List (String × TaskStatus)),
      (∀ q ∈ m, P q.2) → (∀ t ∈ ts, P t) →
      ∀ q ∈ ts.foldl (fun acc t => dictInsert acc t.task_id t) m, P q.2
  | [], _, hm, _ => hm
  | t :: rest, m, hm, hts => by
    simp only [List.foldl_cons]
    refine foldl_dictInsert_pred P rest (dictInsert m t.task_id t) ?_
      (fun x hx => hts x (List.mem_cons_of_mem _ hx))
    intro q hq
    unfold dictInsert at hq
    by_cases hk : (m.lookup t.task_id).isSome
    · rw [if_pos hk] at hq
      obtain ⟨q0, h0, rfl⟩ := List.mem_map.mp hq
      by_cases h1 : q0.1 = t.task_id
      · simp only [h1, if_pos rfl]
        exact hts t (List.mem_cons_self t rest)
      · rw [if_neg h1]
        exact hm q0 h0
    · rw [if_neg hk] at hq
      rcases List.mem_append.mp hq with h1 | h1
      · exact hm _ h1
      · have : q = (t.task_id, t) := by simpa using h1
        rw [this]
        exact hts t (List.mem_cons_self t rest)

theorem foldl_dictInsert_length :
    ∀ (ts : List TaskStatus) (m : List (String × TaskStatus)),
      (∀ t ∈ ts, t.task_id ∉ dictKeys m) →
      ((ts.map (fun t => t.task_id)).Nodup) →
      (ts.foldl (fun acc t => dictInsert acc t.task_id t) m).length
        = m.length + ts.length
  | [], m, _, _ => by simp
  | t :: rest, m, hni, hnd => by
    simp only [List.foldl_cons]
    rw [dictInsert_not_mem m _ _ (hni t (List.mem_cons_self t rest))]
    have hnd0 : t.task_id ∉ rest.map (fun t => t.task_id) := by
      have := hnd
      rw [List.map_cons, List.nodup_cons] at this
      exact this.1
    have hnd' : ((rest.map (fun t => t.task_id)).Nodup) := by
      have := hnd
      rw [List.map_cons, List.nodup_cons] at this
      exact this.2
    have hkeys : ∀ t' ∈ rest,
        t'.task_id ∉ dictKeys (m ++ [(t.task_id, t)]) := by
      intro t' ht' hc
      unfold dictKeys at hc
      rw [List.map_append, List.mem_append] at hc
      rcases hc with hc | hc
      · exact hni t' (List.mem_cons_of_mem _ ht') hc
      · simp only [List.map_cons, List.map_nil, List.mem_singleton] at hc
        exact hnd0 (hc ▸ List.mem_map_of_mem (fun t => t.task_id) ht')
    rw [foldl_dictInsert_length rest _ hkeys hnd']
    simp
    omega

theorem buildTaskDict_length (ts : List TaskStatus)
    (h : ((ts.map (fun t => t.task_id)).Nodup)) :
    (buildTaskDict ts).length = ts.length := by
  unfold buildTaskDict
  rw [foldl_dictInsert_length ts [] (by simp [dictKeys]) h]
  simp

theorem discover_status (input_dir output_dir : String)
    (tree : List FileEntry) (exts : List String) :
    ∀ t ∈ discover_tasks input_dir output_dir tree exts,
      t.status = "pending" := by
  intro t ht
  unfold discover_tasks at ht
  rw [List.mem_flatten] at ht
  obtain ⟨l, hl, htl⟩ := ht
  obtain ⟨ext, _, rfl⟩ := List.mem_map.mp hl
  obtain ⟨f, _, rfl⟩ := List.mem_map.mp htl
  rfl

theorem dictModify_status_mem (m : List (String × TaskStatus)) (tid : String)
    (f : TaskStatus → TaskStatus)
    (hf : ∀ t, valid_status (f t).status)
    (h : ∀ q ∈ m, valid_status q.2.status) :
    ∀ q ∈ dictModify m tid f, valid_status q.2.status := by
  intro q hq
  unfold dictModify at hq
  obtain ⟨q0, h0, rfl⟩ := List.mem_map.mp hq
  by_cases h1 : q0.1 = tid
  · rw [if_pos h1]
    exact hf _
  · rw [if_neg h1]
    exact h q0 h0

theorem tasks_modify_inv (p : ResumableProcessor) (tid : String)
    (f : TaskStatus → TaskStatus) (hf : ∀ t, valid_status (f t).status)
    (h : LedgerInv p) :
    LedgerInv { p with tasks := dictModify p.tasks tid f } := by
  obtain ⟨hs, bp, hb, ht⟩ := h
  refine ⟨dictModify_status_mem _ _ _ hf hs, bp, hb, ?_⟩
  show bp.total_tasks = ((dictModify p.tasks tid f).length : Int)
  unfold dictModify
  rw [List.length_map]
  exact ht

theorem batch_map_inv (p : ResumableProcessor)
    (g : BatchProgress → BatchProgress)
    (hg : ∀ b, (g b).total_tasks = b.total_tasks) (h : LedgerInv p) :
    LedgerInv { p with batch_progress := p.batch_progress.map g } := by
  obtain ⟨hs, bp, hb, ht⟩ := h
  refine ⟨hs, g bp, ?_, ?_⟩
  · show p.batch_progress.map g = some (g bp)
    rw [hb]
    rfl
  · rw [hg]
    exact ht

theorem save_progress_inv (p : ResumableProcessor) (d : Disk) (now : Int)
    (h : LedgerInv p) : LedgerInv (save_progress p d now).1 := by
  obtain ⟨hs, bp, hb, ht⟩ := h
  obtain ⟨bp', h1, h2, _⟩ := save_progress_batch p d now bp hb
  refine ⟨?_, bp', h1, ?_⟩
  · rw [save_progress_fst_tasks]
    exact hs
  · rw [save_progress_fst_tasks, h2.2.2.2.1]
    exact ht

theorem auto_save_inv (p : ResumableProcessor) (d : Disk) (now : Int)
    (h : LedgerInv p) : LedgerInv (auto_save p d now).1 := by
  unfold auto_save
  by_cases hc : now - p.last_save_time > p.auto_save_interval
  · rw [if_pos hc]
    obtain ⟨hs, hrest⟩ := save_progress_inv p d now h
    exact ⟨hs, hrest⟩
  · rw [if_neg hc]
    exact h

theorem started_update_status (w : Option String) (now : Int)
    (t : TaskStatus) : valid_status ((started_update w now) t).status :=
  Or.inr (Or.inl rfl)

theorem completed_update_status (o : Option String) (now : Int)
    (t : TaskStatus) : valid_status ((completed_update o now) t).status := by
  refine Or.inr (Or.inr (Or.inl ?_))
  unfold completed_update
  cases o with
  | none => rfl
  | some s =>
    dsimp only
    rw [apply_ite TaskStatus.status]
    simp

theorem failed_update_status (e : Option String) (now : Int)
    (t : TaskStatus) : valid_status ((failed_update e now) t).status :=
  Or.inr (Or.inr (Or.inr (Or.inl rfl)))

theorem skipped_update_status (r : Option String) (now : Int)
    (t : TaskStatus) : valid_status ((skipped_update r now) t).status :=
  Or.inr (Or.inr (Or.inr (Or.inr rfl)))

theorem apply_op_inv (pd : ResumableProcessor × Disk) (op : LedgerOp)
    (h : LedgerInv pd.1) : LedgerInv (apply_op pd op).1 := by
  cases op with
  | started tid w now =>
    show LedgerInv (mark_task_started pd.1 pd.2 tid w now).1
    unfold mark_task_started
    by_cases hl : (pd.1.tasks.lookup tid).isSome
    · rw [if_pos hl]
      exact tasks_modify_inv _ _ _ (started_update_status w now) h
    · rw [if_neg hl]
      exact h
  | completed tid o now =>
    show LedgerInv (mark_task_completed pd.1 pd.2 tid o now).1
    unfold mark_task_completed
    by_cases hl : (pd.1.tasks.lookup tid).isSome
    · rw [if_pos hl]
      exact auto_save_inv _ _ _ (batch_map_inv _
        (fun bp => { bp with completed_tasks := bp.completed_tasks + 1 })
        (fun b => rfl)
        (tasks_modify_inv _ _ _ (completed_update_status o now) h))
    · rw [if_neg hl]
      exact h
  | failed tid e now =>
    show LedgerInv (mark_task_failed pd.1 pd.2 tid e now).1
    unfold mark_task_failed
    by_cases hl : (pd.1.tasks.lookup tid).isSome
    · rw [if_pos hl]
      exact auto_save_inv _ _ _ (batch_map_inv _
        (fun bp => { bp with failed_tasks := bp.failed_tasks + 1 })
        (fun b => rfl)
        (tasks_modify_inv _ _ _ (failed_update_status e now) h))
    · rw [if_neg hl]
      exact h
  | skipped tid r now =>
    show LedgerInv (mark_task_skipped pd.1 pd.2 tid r now).1
    unfold mark_task_skipped
    by_cases hl : (pd.1.tasks.lookup tid).isSome
    · rw [if_pos hl]
      exact auto_save_inv _ _ _ (batch_map_inv _
        (fun bp => { bp with skipped_tasks := bp.skipped_tasks + 1 })
        (fun b => rfl)
        (tasks_modify_inv _ _ _ (skipped_update_status r now) h))
    · rw [if_neg hl]
      exact h

theorem foldl_ops_inv (ops : List LedgerOp) :
    ∀ pd : ResumableProcessor × Disk, LedgerInv pd.1 →
      LedgerInv (ops.foldl apply_op pd).1 := by
  induction ops with
  | nil => exact fun pd h => h
  | cons op rest ih =>
    intro pd h
    simp only [List.foldl_cons]
    exact ih _ (apply_op_inv pd op h)

theorem init_new_batch_inv (p : ResumableProcessor) (d : Disk)
    (tree : List FileEntry) (now : Int) (pol : String)
    (hids : ((discover_tasks p.input_dir p.output_dir tree
        default_video_extensions).map (fun t => t.task_id)).Nodup) :
    LedgerInv (init_new_batch p d tree now pol).1 := by
  unfold init_new_batch
  refine save_progress_inv _ _ _ ⟨?_, ?_⟩
  · intro q hq
    have := foldl_dictInsert_pred (fun t => t.status = "pending")
      (discover_tasks p.input_dir p.output_dir tree
        default_video_extensions) [] (by simp)
      (discover_status _ _ _ _) q hq
    exact Or.inl this
  · refine ⟨_, rfl, ?_⟩
    show ((discover_tasks p.input_dir p.output_dir tree
        default_video_extensions).length : Int) = _
    rw [buildTaskDict_length _ hids]

/-- C3 amended: after `initialize_new_batch` and any sequence of transition
calls, the five status counts sum to the batch's `total_tasks`, provided
the discovered task ids are pairwise distinct (with id collisions the task
dict deduplicates and the sum falls short of `total_tasks`). -/
theorem C3_status_sum_invariant_amended (p : ResumableProcessor) (d : Disk)
    (tree : List FileEntry) (now : Int) (pol : String) (ops : List LedgerOp)
    (hids : ((discover_tasks p.input_dir p.output_dir tree
        default_video_extensions).map (fun t => t.task_id)).Nodup) :
    ∃ bp, (ops.foldl apply_op ((init_new_batch p d tree now pol).1,
        (init_new_batch p d tree now pol).2.1)).1.batch_progress
        = some bp ∧
      count_status (ops.foldl apply_op ((init_new_batch p d tree now
          pol).1, (init_new_batch p d tree now pol).2.1)).1 "pending" +
      count_status (ops.foldl apply_op ((init_new_batch p d tree now
          pol).1, (init_new_batch p d tree now pol).2.1)).1 "processing" +
      count_status (ops.foldl apply_op ((init_new_batch p d tree now
          pol).1, (init_new_batch p d tree now pol).2.1)).1 "completed" +
      count_status (ops.foldl apply_op ((init_new_batch p d tree now
          pol).1, (init_new_batch p d tree now pol).2.1)).1 "failed" +
      count_status (ops.foldl apply_op ((init_new_batch p d tree now
          pol).1, (init_new_batch p d tree now pol).2.1)).1 "skipped"
        = bp.total_tasks := by
  obtain ⟨hs, bp, hb, ht⟩ := foldl_ops_inv ops
    ((init_new_batch p d tree now pol).1, (init_new_batch p d tree now
      pol).2.1) (init_new_batch_inv p d tree now pol hids)
  refine ⟨bp, hb, ?_⟩
  have hsum := countP_five _ hs
  unfold count_status
  rw [ht]
  omega

/-- C3 witness: a two-file tree with distinct ids, four transitions. -/
theorem C3_status_sum_invariant_witness :
    ((discover_tasks procW.input_dir procW.output_dir treeGood
        default_video_extensions).map (fun t => t.task_id)).Nodup ∧
    ∃ bp, (opsW.foldl apply_op ((init_new_batch procW { } treeGood 0
        "ask-each").1, (init_new_batch procW { } treeGood 0
        "ask-each").2.1)).1.batch_progress = some bp ∧
      count_status (opsW.foldl apply_op ((init_new_batch procW { } treeGood
          0 "ask-each").1, (init_new_batch procW { } treeGood 0
          "ask-each").2.1)).1 "pending" +
      count_status (opsW.foldl apply_op ((init_new_batch procW { } treeGood
          0 "ask-each").1, (init_new_batch procW { } treeGood 0
          "ask-each").2.1)).1 "processing" +
      count_status (opsW.foldl apply_op ((init_new_batch procW { } treeGood
          0 "ask-each").1, (init_new_batch procW { } treeGood 0
          "ask-each").2.1)).1 "completed" +
      count_status (opsW.foldl apply_op ((init_new_batch procW { } treeGood
          0 "ask-each").1, (init_new_batch procW { } treeGood 0
          "ask-each").2.1)).1 "failed" +
      count_status (opsW.foldl apply_op ((init_new_batch procW { } treeGood
          0 "ask-each").1, (init_new_batch procW { } treeGood 0
          "ask-each").2.1)).1 "skipped" = bp.total_tasks :=
  ⟨by decide,
   C3_status_sum_invariant_amended procW { } treeGood 0 "ask-each" opsW
     (by decide)⟩

/-- C3 counterexample: on a tree whose two files collide to one task id,
immediately after `initialize_new_batch` the five status counts sum to 1
while `total_tasks` is 2, falsifying the claimed invariant. -/
theorem C3_status_sum_counterexample :
    count_status (init_new_batch procW { } treeCollide 0 "ask-each").1
        "pending" +
    count_status (init_new_batch procW { } treeCollide 0 "ask-each").1
        "processing" +
    count_status (init_new_batch procW { } treeCollide 0 "ask-each").1
        "completed" +
    count_status (init_new_batch procW { } treeCollide 0 "ask-each").1
        "failed" +
    count_status (init_new_batch procW { } treeCollide 0 "ask-each").1
        "skipped" = 1 ∧
    (init_new_batch procW { } treeCollide 0
        "ask-each").1.batch_progress.map (fun bp => bp.total_tasks)
      = some 2 := by decide

theorem filter_map_ids (ext : String) :
    ∀ (tree1 tree2 : List FileEntry),
      tree1.map (fun f => f.rel_path) = tree2.map (fun f => f.rel_path) →
      (tree1.filter (fun f => endsWithStr f.rel_path ext)).map
          (fun f => task_id_of f.rel_path) =
        (tree2.filter (fun f => endsWithStr f.rel_path ext)).map
          (fun f => task_id_of f.rel_path)
  | [], [], _ => rfl
  | [], _ :: _, h => by simp at h
  | _ :: _, [], h => by simp at h
  | f1 :: t1, f2 :: t2, h => by
    simp only [List.map_cons, List.cons.injEq] at h
    obtain ⟨hr, ht⟩ := h
    simp only [List.filter_cons, hr]
    by_cases hx : endsWithStr f2.rel_path ext
    · simp [hx, hr, filter_map_ids ext t1 t2 ht]
    · simp [hx, filter_map_ids ext t1 t2 ht]

/-- C4 amended: the sequence of discovered task ids is a pure function of
the sequence of relative input paths — independent of the input/output
directories, file sizes and checksums — so re-running discovery on an
unchanged tree yields an identical id sequence.  (The pairwise-distinctness
half of the original claim is false: see the collision counterexample.) -/
theorem C4_task_id_purity_amended (in1 out1 in2 out2 : String)
    (tree1 tree2 : List FileEntry) (exts : List String)
    (h : tree1.map (fun f => f.rel_path) = tree2.map (fun f => f.rel_path)) :
    (discover_tasks in1 out1 tree1 exts).map (fun t => t.task_id) =
      (discover_tasks in2 out2 tree2 exts).map (fun t => t.task_id) := by
  unfold discover_tasks
  rw [List.map_flatten, List.map_flatten, List.map_map, List.map_map]
  have hfun : ∀ ext ∈ exts,
      ((List.map (fun t : TaskStatus => t.task_id)) ∘ fun ext =>
        (tree1.filter (fun f => endsWithStr f.rel_path ext)).map (fun f =>
          ({ task_id := task_id_of f.rel_path
             input_path := in1 ++ "/" ++ f.rel_path
             output_path := out1 ++ "/converted/" ++ fileName f.rel_path
             status := "pending"
             file_size := some f.size
             checksum := some f.checksum } : TaskStatus))) ext =
      ((List.map (fun t : TaskStatus => t.task_id)) ∘ fun ext =>
        (tree2.filter (fun f => endsWithStr f.rel_path ext)).map (fun f =>
          ({ task_id := task_id_of f.rel_path
             input_path := in2 ++ "/" ++ f.rel_path
             output_path := out2 ++ "/converted/" ++ fileName f.rel_path
             status := "pending"
             file_size := some f.size
             checksum := some f.checksum } : TaskStatus))) ext := by
    intro ext _
    show ((tree1.filter _).map _).map _ = ((tree2.filter _).map _).map _
    rw [List.map_map, List.map_map]
    exact filter_map_ids ext tree1 tree2 h
  rw [List.map_congr_left hfun]

/-- C4 witness: two snapshots of the same paths with different sizes,
checksums and directories produce the same id sequence. -/
theorem C4_task_id_purity_witness :
    treeGood.map (fun f => f.rel_path)
        = treeGood2.map (fun f => f.rel_path) ∧
    (discover_tasks "in" "out" treeGood default_video_extensions).map
        (fun t => t.task_id) =
      (discover_tasks "other" "dir" treeGood2
          default_video_extensions).map (fun t => t.task_id) :=
  ⟨by decide,
   C4_task_id_purity_amended "in" "out" "other" "dir" treeGood treeGood2
     default_video_extensions (by decide)⟩

/-- C4 counterexample: the distinct relative paths `a.b.mp4` and `a_b.mp4`
are both discovered and collide to the single task id `a_b_mp4`, falsifying
pairwise distinctness of ids over one batch. -/
theorem C4_task_id_collision_counterexample :
    (discover_tasks "in" "out" treeCollide default_video_extensions).map
        (fun t => t.task_id) = ["a_b_mp4", "a_b_mp4"] ∧
    (discover_tasks "in" "out" treeCollide default_video_extensions).map
        (fun t => t.input_path) = ["in/a.b.mp4", "in/a_b.mp4"] := by decide

theorem sum_ge_of_all_ge (l : List Rat) (c : Rat)
    (h : ∀ x ∈ l, c ≤ x) : c * (l.length : Rat) ≤ l.sum := by
  induction l with
  | nil => simp
  | cons x rest ih =>
    have hx := h x (List.mem_cons_self x rest)
    have ihr := ih (fun y hy => h y (List.mem_cons_of_mem _ hy))
    simp only [List.sum_cons, List.length_cons]
    push_cast
    have hexp : c * ((rest.length : ℚ) + 1) = c * (rest.length : ℚ) + c := by
      ring
    rw [hexp]
    linarith

theorem detect_io_false (lb : DynamicLoadBalancer) (m : SystemMetrics)
    (hhist : ∀ h ∈ lb.metrics_history, (50:ℚ) ≤ h.cpu_usage_avg) :
    detect_io_bottleneck lb m = false := by
  unfold detect_io_bottleneck
  by_cases hlen : lb.metrics_history.length < 3
  · rw [if_pos hlen]
  · rw [if_neg hlen]
    have hlen3 : (lastN 3 lb.metrics_history).length = 3 := by
      unfold lastN
      rw [List.length_drop]
      omega
    have hall : ∀ x ∈ (lastN 3 lb.metrics_history).map
        (fun mm => mm.cpu_usage_avg), (50:ℚ) ≤ x := by
      intro x hx
      obtain ⟨mm, hmm, rfl⟩ := List.mem_map.mp hx
      exact hhist mm (List.drop_subset _ _ hmm)
    have hsum := sum_ge_of_all_ge _ 50 hall
    rw [List.length_map, hlen3] at hsum
    have havg : (50:ℚ) ≤ ((lastN 3 lb.metrics_history).map
        (fun mm => mm.cpu_usage_avg)).sum /
          (((lastN 3 lb.metrics_history).length : Nat) : ℚ) := by
      rw [hlen3]
      rw [le_div_iff₀ (by norm_num : (0:ℚ) < ((3:Nat) : ℚ))]
      linarith
    have hnot : ¬ (((lastN 3 lb.metrics_history).map
        (fun mm => mm.cpu_usage_avg)).sum /
          (((lastN 3 lb.metrics_history).length : Nat) : ℚ) < 50) :=
      not_lt.mpr havg
    simp [hnot]

theorem calc_steady (lb : DynamicLoadBalancer) (m : SystemMetrics)
    (hmin : lb.min_workers ≤ lb.active_workers)
    (_hmax : lb.active_workers ≤ lb.max_workers)
    (hhist : ∀ h ∈ lb.metrics_history, (50:ℚ) ≤ h.cpu_usage_avg)
    (hm : SteadySample lb.target_cpu_usage lb.max_workers m) :
    (lb.active_workers < lb.max_workers →
      lb.active_workers + 1 ≤ calculate_optimal_workers lb m ∧
        calculate_optimal_workers lb m ≤ lb.max_workers) ∧
    (lb.active_workers = lb.max_workers →
      calculate_optimal_workers lb m = lb.max_workers) := by
  obtain ⟨h50, hlow, h60, hmem, hq⟩ := hm
  have hdet := detect_io_false lb m hhist
  unfold calculate_optimal_workers
  rw [if_pos hlow, hdet]
  simp only [Bool.false_eq_true, if_false]
  constructor
  · intro hlt
    split_ifs with h1 h2 <;> omega
  · intro heq
    split_ifs with h1 h2 <;> omega

theorem push_metrics_hist (lb : DynamicLoadBalancer) (m : SystemMetrics)
    (hhist : ∀ h ∈ lb.metrics_history, (50:ℚ) ≤ h.cpu_usage_avg)
    (h50m : (50:ℚ) ≤ m.cpu_usage_avg) :
    ∀ h ∈ (push_metrics lb m).metrics_history, (50:ℚ) ≤ h.cpu_usage_avg := by
  intro x hx
  have hfield : (push_metrics lb m).metrics_history =
      (if (lb.metrics_history ++ [m]).length > 120 then
        lastN 120 (lb.metrics_history ++ [m])
      else lb.metrics_history ++ [m]) := rfl
  rw [hfield] at hx
  have hx' : x ∈ lb.metrics_history ++ [m] := by
    by_cases hl : (lb.metrics_history ++ [m]).length > 120
    · rw [if_pos hl] at hx
      exact List.drop_subset _ _ hx
    · rw [if_neg hl] at hx
      exact hx
  rcases List.mem_append.mp hx' with h1 | h1
  · exact hhist x h1
  · rw [List.mem_singleton.mp h1]
    exact h50m

theorem monitor_step_active (lb : DynamicLoadBalancer) (m : SystemMetrics)
    (now : Int) : (monitor_step lb m now).active_workers =
      calculate_optimal_workers (push_metrics lb m) m := by
  unfold monitor_step
  by_cases hne : calculate_optimal_workers (push_metrics lb m) m ≠
      (push_metrics lb m).active_workers
  · rw [if_pos hne]
    show ((adjust_workers (push_metrics lb m) _ now).2).active_workers = _
    unfold adjust_workers
    rw [if_neg (fun hc => hne hc)]
  · rw [if_neg hne]
    push_neg at hne
    exact hne.symm

theorem monitor_step_fields (lb : DynamicLoadBalancer) (m : SystemMetrics)
    (now : Int) :
    (monitor_step lb m now).min_workers = lb.min_workers ∧
    (monitor_step lb m now).max_workers = lb.max_workers ∧
    (monitor_step lb m now).target_cpu_usage = lb.target_cpu_usage ∧
    (monitor_step lb m now).metrics_history =
      (push_metrics lb m).metrics_history := by
  unfold monitor_step
  by_cases hne : calculate_optimal_workers (push_metrics lb m) m ≠
      (push_metrics lb m).active_workers
  · rw [if_pos hne]
    unfold adjust_workers
    rw [if_neg (fun hc => hne hc)]
    exact ⟨rfl, rfl, rfl, rfl⟩
  · rw [if_neg hne]
    exact ⟨rfl, rfl, rfl, rfl⟩

theorem monitor_step_steady (lb : DynamicLoadBalancer) (m : SystemMetrics)
    (now : Int)
    (hmin : lb.min_workers ≤ lb.active_workers)
    (hmax : lb.active_workers ≤ lb.max_workers)
    (hhist : ∀ h ∈ lb.metrics_history, (50:ℚ) ≤ h.cpu_usage_avg)
    (hm : SteadySample lb.target_cpu_usage lb.max_workers m) :
    lb.min_workers ≤ (monitor_step lb m now).active_workers ∧
    (monitor_step lb m now).active_workers ≤ lb.max_workers ∧
    (lb.active_workers < lb.max_workers →
      lb.active_workers + 1 ≤ (monitor_step lb m now).active_workers) ∧
    (lb.active_workers = lb.max_workers →
      (monitor_step lb m now).active_workers = lb.max_workers) := by
  have hhist1 : ∀ h ∈ (push_metrics lb m).metrics_history,
      (50:ℚ) ≤ h.cpu_usage_avg := push_metrics_hist lb m hhist hm.1
  have hcalc := calc_steady (push_metrics lb m) m hmin hmax hhist1 hm
  have hpa : (push_metrics lb m).active_workers = lb.active_workers := rfl
  have hpmx : (push_metrics lb m).max_workers = lb.max_workers := rfl
  rw [hpa, hpmx] at hcalc
  rw [monitor_step_active]
  rcases lt_or_eq_of_le hmax with hlt | heq
  · obtain ⟨ha, hb⟩ := hcalc.1 hlt
    exact ⟨by omega, hb, fun _ => ha, fun hc => by omega⟩
  · have := hcalc.2 heq
    exact ⟨by omega, by omega, fun hc => by omega, fun _ => this⟩

theorem run_stream_steady (stream : List SystemMetrics) :
    ∀ (lb : DynamicLoadBalancer) (now : Int),
      lb.min_workers ≤ lb.active_workers →
      lb.active_workers ≤ lb.max_workers →
      (∀ h ∈ lb.metrics_history, (50:ℚ) ≤ h.cpu_usage_avg) →
      (∀ m ∈ stream,
        SteadySample lb.target_cpu_usage lb.max_workers m) →
      min (lb.active_workers + (stream.length : Int)) lb.max_workers ≤
          (run_stream lb stream now).active_workers ∧
        (run_stream lb stream now).active_workers ≤ lb.max_workers := by
  induction stream with
  | nil =>
    intro lb now hmin hmax _ _
    constructor
    · show min (lb.active_workers + ((0:Nat) : Int)) lb.max_workers ≤
        lb.active_workers
      omega
    · exact hmax
  | cons m rest ih =>
    intro lb now hmin hmax hhist hstream
    have hm := hstream m (List.mem_cons_self m rest)
    have hstep := monitor_step_steady lb m now hmin hmax hhist hm
    have hfields := monitor_step_fields lb m now
    have hhist' : ∀ h ∈ (monitor_step lb m now).metrics_history,
        (50:ℚ) ≤ h.cpu_usage_avg := by
      rw [hfields.2.2.2]
      exact push_metrics_hist lb m hhist hm.1
    have hstream' : ∀ mm ∈ rest,
        SteadySample (monitor_step lb m now).target_cpu_usage
          (monitor_step lb m now).max_workers mm := by
      rw [hfields.2.2.1, hfields.2.1]
      exact fun mm hmm => hstream mm (List.mem_cons_of_mem _ hmm)
    have hrec := ih (monitor_step lb m now) now
      (by rw [hfields.1]; exact hstep.1)
      (by rw [hfields.2.1]; exact hstep.2.1)
      hhist' hstream'
    rw [hfields.2.1] at hrec
    have hrun : run_stream lb (m :: rest) now =
        run_stream (monitor_step lb m now) rest now := rfl
    rw [hrun]
    have hlen : ((m :: rest).length : Int) = (rest.length : Int) + 1 := by
      simp
    rw [hlen]
    rcases lt_or_eq_of_le hmax with hlt | heq
    · have h1 := hstep.2.2.1 hlt
      omega
    · have h1 := hstep.2.2.2 heq
      omega

/-- C8 amended: monotone ramp-up needs more than CPU headroom and free
memory.  For streams whose samples additionally avoid the I/O-bottleneck
and idle-shed heuristics (`50 ≤ avg_cpu < min(0.7 × target, 60)`) and keep
the queue at least `max_workers` deep, with a memory ceiling admitting
`max_workers`, every adjustment cycle strictly increases the worker count
while below `max_workers`, and after enough cycles the count reaches and
then holds `max_workers`.  (With CPU headroom and free memory alone the
count can stall or shrink: see the counterexample.) -/
theorem C8_steady_increase_amended (lb : DynamicLoadBalancer)
    (stream : List SystemMetrics) (now : Int)
    (hmin : lb.min_workers ≤ lb.active_workers)
    (hmax : lb.active_workers ≤ lb.max_workers)
    (hhist : ∀ h ∈ lb.metrics_history, (50:ℚ) ≤ h.cpu_usage_avg)
    (hstream : ∀ m ∈ stream,
      SteadySample lb.target_cpu_usage lb.max_workers m) :
    (∀ m ∈ stream, lb.active_workers < lb.max_workers →
      lb.active_workers < (monitor_step lb m now).active_workers) ∧
    min (lb.active_workers + (stream.length : Int)) lb.max_workers ≤
        (run_stream lb stream now).active_workers ∧
    (run_stream lb stream now).active_workers ≤ lb.max_workers := by
  refine ⟨?_, run_stream_steady stream lb now hmin hmax hhist hstream⟩
  intro m hmem hlt
  have := (monitor_step_steady lb m now hmin hmax hhist
    (hstream m hmem)).2.2.1 hlt
  omega

/-- C8 witness: a 1..2 balancer fed three steady samples (55% CPU, 20%
memory, queue depth 2) climbs from one worker to the maximum of two and
holds it. -/
theorem C8_steady_increase_witness :
    lbSmall.min_workers ≤ lbSmall.active_workers ∧
    lbSmall.active_workers ≤ lbSmall.max_workers ∧
    (∀ m ∈ [mSteady, mSteady, mSteady],
      SteadySample lbSmall.target_cpu_usage lbSmall.max_workers m) ∧
    ((∀ m ∈ [mSteady, mSteady, mSteady],
        lbSmall.active_workers < lbSmall.max_workers →
        lbSmall.active_workers < (monitor_step lbSmall m 1).active_workers) ∧
      min (lbSmall.active_workers + (([mSteady, mSteady,
          mSteady].length : Nat) : Int)) lbSmall.max_workers ≤
        (run_stream lbSmall [mSteady, mSteady, mSteady] 1).active_workers ∧
      (run_stream lbSmall [mSteady, mSteady, mSteady] 1).active_workers ≤
        lbSmall.max_workers) := by
  have hstream : ∀ m ∈ [mSteady, mSteady, mSteady],
      SteadySample lbSmall.target_cpu_usage lbSmall.max_workers m := by
    intro m hm
    have hm' : m = mSteady := by
      simp only [List.mem_cons, List.not_mem_nil, or_false] at hm
      rcases hm with h | h | h <;> exact h
    rw [hm']
    refine ⟨by norm_num [mSteady], ?_, by norm_num [mSteady], ?_, ?_⟩
    · show (55:ℚ) < 85 * (7 / 10)
      norm_num
    · show (2:ℤ) ≤ truncRat ((100 - (20:ℚ)) / 8)
      have : ((100 - (20:ℚ)) / 8) = 10 := by norm_num
      rw [this]
      decide
    · show (2:ℤ) ≤ 2
      omega
  exact ⟨by decide, by decide, hstream,
    C8_steady_increase_amended lbSmall [mSteady, mSteady, mSteady] 1
      (by decide) (by decide)
      (by intro x hx; simp [lbSmall, DynamicLoadBalancer.init] at hx)
      hstream⟩

/-- C8 counterexample: a sample with CPU headroom (40% < 0.7 × 85 = 59.5%)
and ample memory (ceiling 10 workers) but a short queue leaves the worker
count unchanged at 2 < 16: the idle-shed branch cancels the CPU-headroom
increment, so the claimed strict increase fails. -/
theorem C8_no_strict_increase_counterexample :
    mIdle.cpu_usage_avg < lbWide.target_cpu_usage * (7 / 10) ∧
    lbWide.active_workers < lbWide.max_workers ∧
    lbWide.active_workers + 1 ≤ truncRat ((100 - mIdle.memory_usage) / 8) ∧
    (monitor_step lbWide mIdle 1).active_workers = lbWide.active_workers := by
  refine ⟨?_, by decide, ?_, ?_⟩
  · show (40:ℚ) < 85 * (7 / 10)
    norm_num
  · show (2:ℤ) + 1 ≤ truncRat ((100 - (20:ℚ)) / 8)
    have : ((100 - (20:ℚ)) / 8) = 10 := by norm_num
    rw [this]
    decide
  · norm_num [monitor_step, push_metrics, calculate_optimal_workers,
      detect_io_bottleneck, truncRat, lbWide, mIdle,
      DynamicLoadBalancer.init, lastN]
